import Mathlib

/-!
Verification of the pygbm geometric-Brownian-motion simulator
(src/pygbm/base.py and src/pygbm/simulator.py) against its
natural-language specification.

The embedding models the numerical content over the real numbers:
numpy arrays become lists of reals, numpy operations (linspace, cumsum,
diff, insert) become the corresponding list functions, and Python
failures (ZeroDivisionError, AttributeError, TypeError) become an
explicit error type threaded through an `Except` monad.  The
pseudo-random generator of numpy is external to the repository; it is
abstracted as an explicit function argument from the resolved seed,
the standard deviation and the draw count to the list of draws, with a
separate `entropy` argument standing for the ambient entropy used when
the seed is omitted.
-/

/-- Process parameters of the GBM, from src/pygbm/base.py class GBM_setup:
initial value y0, drift mu, diffusion coefficient sigma.  The simulator
class GBM_simulator adds no further state, so a single structure embeds
both. -/
structure GBM_setup where
  y0 : ℝ
  mu : ℝ
  sigma : ℝ

/-- Python exceptions that the simulator code can raise. -/
inductive PyError where
  | zeroDivisionError : PyError
  | attributeError : String → PyError
  | typeError : String → PyError
deriving DecidableEq

/-- Embedding of numpy.linspace over the reals: num points from start to
stop inclusive, the i-th point being start + (stop - start) * i / (num - 1).
For num = 1 numpy returns [start], which the formula also yields under the
division-by-zero convention of the reals in Lean. -/
noncomputable def linspace (start stop : ℝ) (num : ℕ) : List ℝ :=
  (List.range num).map (fun i : ℕ => start + (stop - start) * (i : ℝ) / ((num - 1 : ℕ) : ℝ))

/-- Embedding of numpy.cumsum on a one-dimensional array. -/
noncomputable def cumsum : List ℝ → List ℝ
  | [] => []
  | x :: xs => x :: (cumsum xs).map (fun y => x + y)

/-- Embedding of numpy.diff on a one-dimensional array: first differences. -/
noncomputable def npdiff (xs : List ℝ) : List ℝ :=
  List.zipWith (fun a b => b - a) xs xs.tail

/-- Embedding of Python float division x / n by an integer count n, which
raises ZeroDivisionError when n = 0 (simulator.py computes dt = T/N). -/
noncomputable def pydivNat (x : ℝ) (n : ℕ) : Except PyError ℝ :=
  if n = 0 then .error .zeroDivisionError else .ok (x / n)

/-- Embedding of Python int() applied to a real (as in np.linspace(0, int(T), ...)
in simulate_compare): truncation toward zero. -/
noncomputable def pyint (x : ℝ) : ℤ :=
  if 0 ≤ x then ⌊x⌋ else ⌈x⌉

/-- Embedding of np.random.default_rng(seed): resolves the generator seed,
using the ambient entropy when the Python seed argument is None.  The spec
(section 4.2) fixes the contract: a given seed determines the draws, an
omitted seed gives a fresh entropy-seeded generator. -/
def default_rng (seed : Option ℕ) (entropy : ℕ) : ℕ :=
  seed.getD entropy

/-- Closed form of exact_method (simulator.py line 40):
y0 * exp((mu - 0.5 sigma^2) t + sigma B). -/
noncomputable def exactVal (p : GBM_setup) (t Bt : ℝ) : ℝ :=
  p.y0 * Real.exp ((p.mu - 0.5 * p.sigma ^ 2) * t + p.sigma * Bt)

/-- exact_method of GBM_simulator (simulator.py lines 27-42): maps the
closed-form solution over t_values[1:] paired with the cumulative Brownian
values, then inserts y0 at index 0; returns (t_values, y_values). -/
noncomputable def exact_method (p : GBM_setup) (t_values B_values : List ℝ) :
    List ℝ × List ℝ :=
  (t_values, p.y0 :: List.zipWith (fun t Bt => exactVal p t Bt) t_values.tail B_values)

/-- One step of the Euler-Maruyama loop body (simulator.py line 62):
y_pre + y_pre*mu*dt + sigma*y_pre*dB. -/
noncomputable def eulerStep (p : GBM_setup) (dt y_pre dB : ℝ) : ℝ :=
  y_pre + y_pre * p.mu * dt + p.sigma * y_pre * dB

/-- One step of the Milstein loop body (simulator.py lines 84-87):
the Euler body plus 0.5*sigma^2*y_pre*(dB^2 - dt). -/
noncomputable def milsteinStep (p : GBM_setup) (dt y_pre dB : ℝ) : ℝ :=
  y_pre + y_pre * p.mu * dt + p.sigma * y_pre * dB
    + 0.5 * p.sigma ^ 2 * y_pre * (dB ^ 2 - dt)

/-- The increment reconstruction shared by euler_method and milstein_method
(simulator.py lines 59 and 81): np.insert(np.diff(B_values), 0, B_values[0]).
B_values[0] of the nonempty arrays reaching this code is headI. -/
noncomputable def dBValues (B_values : List ℝ) : List ℝ :=
  B_values.headI :: npdiff B_values

/-- The step size both recurrence methods recompute from the grid
(simulator.py lines 58 and 80): t_values[-1] / (len(t_values) - 1). -/
noncomputable def gridDt (t_values : List ℝ) : ℝ :=
  t_values.getLastD 0 / ((t_values.length : ℝ) - 1)

/-- euler_method of GBM_simulator (simulator.py lines 44-64): the loop
appending eulerStep results starting from [y0] is the left scan of the step
function over the reconstructed increments. -/
noncomputable def euler_method (p : GBM_setup) (t_values B_values : List ℝ) :
    List ℝ × List ℝ :=
  (t_values,
    List.scanl (fun y_pre dB => eulerStep p (gridDt t_values) y_pre dB)
      p.y0 (dBValues B_values))

/-- milstein_method of GBM_simulator (simulator.py lines 66-89): same loop
as euler_method with the Milstein body. -/
noncomputable def milstein_method (p : GBM_setup) (t_values B_values : List ℝ) :
    List ℝ × List ℝ :=
  (t_values,
    List.scanl (fun y_pre dB => milsteinStep p (gridDt t_values) y_pre dB)
      p.y0 (dBValues B_values))

/-- The attributes of a GBM_simulator object as defined in the two source
classes: three data fields set by GBM_setup.__init__, and the methods of
both classes. -/
inductive SimAttr where
  | y0 : SimAttr
  | mu : SimAttr
  | sigma : SimAttr
  | init : SimAttr
  | exactMethod : SimAttr
  | eulerMethod : SimAttr
  | milsteinMethod : SimAttr
  | simulatePath : SimAttr
  | plotPath : SimAttr
  | simulateCompare : SimAttr
deriving DecidableEq

/-- The attribute names of a GBM_simulator object, as strings. -/
def simAttrNames : List String :=
  [r"y0", r"mu", r"sigma", r"__init__", r"exact_method", r"euler_method",
   r"milstein_method", r"simulate_path", r"plot_path", r"simulate_compare"]

/-- Embedding of getattr(self, name) on a GBM_simulator object: the lookup
succeeds exactly on the class-defined attribute names. -/
def lookupAttr (name : String) : Option SimAttr :=
  if name = r"y0" then some .y0
  else if name = r"mu" then some .mu
  else if name = r"sigma" then some .sigma
  else if name = r"__init__" then some .init
  else if name = r"exact_method" then some .exactMethod
  else if name = r"euler_method" then some .eulerMethod
  else if name = r"milstein_method" then some .milsteinMethod
  else if name = r"simulate_path" then some .simulatePath
  else if name = r"plot_path" then some .plotPath
  else if name = r"simulate_compare" then some .simulateCompare
  else none

/-- Result of calling the looked-up attribute as simulation(t_values, B_values)
followed by unpacking into (t_values, y_values), as simulate_path line 113 and
simulate_compare line 154 do.  The three scheme methods return their pair.
Every other attribute yields a TypeError: the float fields are not callable;
__init__ and simulate_compare are missing required positional arguments;
plot_path returns None, which the caller then fails to unpack; simulate_path
called with (t_values, B_values) passes an ndarray where np.linspace requires
an integer num. -/
noncomputable def invoke2 (p : GBM_setup) (a : SimAttr) (t B : List ℝ) :
    Except PyError (List ℝ × List ℝ) :=
  match a with
  | .exactMethod => .ok (exact_method p t B)
  | .eulerMethod => .ok (euler_method p t B)
  | .milsteinMethod => .ok (milstein_method p t B)
  | .y0 => .error (.typeError (r"float object is not callable"))
  | .mu => .error (.typeError (r"float object is not callable"))
  | .sigma => .error (.typeError (r"float object is not callable"))
  | .init => .error (.typeError (r"missing required positional argument"))
  | .simulatePath => .error (.typeError (r"num cannot be interpreted as an integer"))
  | .plotPath => .error (.typeError (r"cannot unpack non-iterable NoneType object"))
  | .simulateCompare => .error (.typeError (r"missing required positional argument"))

/-- The dynamic dispatch of simulate_path lines 112-113 (also used per
iteration by simulate_compare lines 153-154): getattr followed by the call
on (t_values, B_values); a name bound to no attribute raises AttributeError. -/
noncomputable def simDispatch (p : GBM_setup) (method : String) (t B : List ℝ) :
    Except PyError (List ℝ × List ℝ) :=
  match lookupAttr method with
  | some a => invoke2 p a t B
  | none => .error (.attributeError method)

/-- simulate_path of GBM_simulator (simulator.py lines 91-114).  rngNormal
abstracts rng.normal(0, stddev, size) of the numpy generator: a function of
the resolved seed, the standard deviation and the draw count. -/
noncomputable def simulate_path (rngNormal : ℕ → ℝ → ℕ → List ℝ) (entropy : ℕ)
    (p : GBM_setup) (T : ℝ) (N : ℕ) (method : String) (seed : Option ℕ) :
    Except PyError (List ℝ × List ℝ) := do
  let t_values := linspace 0 T (N + 1)
  let dt ← pydivNat T N
  let dB := rngNormal (default_rng seed entropy) (Real.sqrt dt) N
  let B_values := cumsum dB
  simDispatch p method t_values B_values

/-- Observable outcome of simulate_compare: the ordered series handed to
plt.plot (one (label, x, y) triple per loop iteration), and the value the
function returns.  The source returns None (its docstring says so as well),
which the `ret` field records as `none`; a version returning the per-scheme
results would put them in `some`. -/
structure CompareOutcome where
  plots : List (String × List ℝ × List ℝ)
  ret : Option (List (String × List ℝ × List ℝ))

/-- The loop of simulate_compare lines 152-155: dispatch each named method
on the current grid and the shared Brownian sample, re-binding t_values to
the first component of each result before plotting and continuing. -/
noncomputable def compareLoop (p : GBM_setup) (methods : List String)
    (t B : List ℝ) : Except PyError (List (String × List ℝ × List ℝ)) :=
  match methods with
  | [] => .ok []
  | m :: rest => do
    let r ← simDispatch p m t B
    let tail ← compareLoop p rest r.1 B
    .ok ((m, r.1, r.2) :: tail)

/-- simulate_compare of GBM_simulator (simulator.py lines 134-160).  Note
the grid is np.linspace(0, int(T), int(N+1)): the horizon is truncated to an
integer, while dt = T/N and the Brownian draws use the untruncated T. -/
noncomputable def simulate_compare (rngNormal : ℕ → ℝ → ℕ → List ℝ) (entropy : ℕ)
    (p : GBM_setup) (T : ℝ) (N : ℕ) (seed : Option ℕ) (methods : List String) :
    Except PyError CompareOutcome := do
  let t_values := linspace 0 ((pyint T : ℤ) : ℝ) (N + 1)
  let dt ← pydivNat T N
  let dB := rngNormal (default_rng seed entropy) (Real.sqrt dt) N
  let B_values := cumsum dB
  let plots ← compareLoop p methods t_values B_values
  return ⟨plots, none⟩

/-- The default method list of simulate_compare, which is also the set of
scheme method names the spec's dispatch is about. -/
def schemeMethodNames : List String :=
  [r"exact_method", r"euler_method", r"milstein_method"]

/-- The value sequence a named scheme method produces on a given grid and
cumulative Brownian sample (second component of the method's return). -/
noncomputable def schemeApply (p : GBM_setup) (m : String) (t B : List ℝ) : List ℝ :=
  if m = r"exact_method" then (exact_method p t B).2
  else if m = r"euler_method" then (euler_method p t B).2
  else (milstein_method p t B).2

/-- A concrete generator model for closed witnesses: every draw is zero. -/
noncomputable def rng0 : ℕ → ℝ → ℕ → List ℝ :=
  fun _ _ n => List.replicate n 0

/-- Concrete parameters for closed witnesses: y0 = 1, mu = 1, sigma = 0. -/
noncomputable def p0 : GBM_setup := ⟨1, 1, 0⟩

theorem except_bind_ok {ε α β : Type} (a : α) (f : α → Except ε β) :
    (Except.ok a >>= f : Except ε β) = f a := rfl

theorem except_bind_error {ε α β : Type} (e : ε) (f : α → Except ε β) :
    (Except.error e >>= f : Except ε β) = .error e := rfl

theorem pydivNat_pos (x : ℝ) (n : ℕ) (h : n ≠ 0) :
    pydivNat x n = .ok (x / n) := by
  simp [pydivNat, h]

theorem getD_tail {α : Type} [Inhabited α] (l : List α) (i : ℕ) (d : α) :
    l.tail.getD i d = l.getD (i + 1) d := by
  cases l <;> simp

theorem zipWith_getD {α β γ : Type} (f : α → β → γ) (d1 : α) (d2 : β) (d3 : γ) :
    ∀ (l1 : List α) (l2 : List β) (i : ℕ), i < l1.length → i < l2.length →
      (List.zipWith f l1 l2).getD i d3 = f (l1.getD i d1) (l2.getD i d2) := by
  intro l1
  induction l1 with
  | nil => intro l2 i h1 _; simp at h1
  | cons x xs ih =>
    intro l2 i h1 h2
    cases l2 with
    | nil => simp at h2
    | cons y ys =>
      cases i with
      | zero => simp
      | succ j =>
        have hx : j < xs.length := by simpa using h1
        have hy : j < ys.length := by simpa using h2
        simpa using ih ys j hx hy

theorem scanl_getD_zero {α β : Type} (f : α → β → α) (a d : α) (l : List β) :
    (List.scanl f a l).getD 0 d = a := by
  cases l <;> simp [List.scanl]

theorem scanl_getD_succ {α β : Type} (f : α → β → α) (d : α) (e : β) :
    ∀ (l : List β) (a : α) (i : ℕ), i < l.length →
      (List.scanl f a l).getD (i + 1) d =
        f ((List.scanl f a l).getD i d) (l.getD i e) := by
  intro l
  induction l with
  | nil => intro a i h; simp at h
  | cons x xs ih =>
    intro a i h
    cases i with
    | zero =>
      simp [List.scanl_cons, scanl_getD_zero]
    | succ j =>
      have hj : j < xs.length := by simpa using h
      simpa [List.scanl_cons] using ih (f a x) j hj

theorem scanl_getD_geom (c d : ℝ) (f : ℝ → ℝ → ℝ) (hf : ∀ y b, f y b = y * c) :
    ∀ (l : List ℝ) (a : ℝ) (i : ℕ), i ≤ l.length →
      (List.scanl f a l).getD i d = a * c ^ i := by
  intro l
  induction l with
  | nil =>
    intro a i h
    have h0 : i = 0 := Nat.le_zero.mp h
    subst h0
    simp [List.scanl_nil]
  | cons x xs ih =>
    intro a i h
    cases i with
    | zero => simp [scanl_getD_zero]
    | succ j =>
      have hj : j ≤ xs.length := by simpa using h
      have step := ih (f a x) j hj
      calc (List.scanl f a (x :: xs)).getD (j + 1) d
          = (List.scanl f (f a x) xs).getD j d := by
            simp [List.scanl_cons]
        _ = f a x * c ^ j := step
        _ = a * c ^ (j + 1) := by rw [hf a x]; ring

theorem scanl_congr {α β : Type} (f g : α → β → α) (h : ∀ a b, f a b = g a b) :
    ∀ (l : List β) (a : α), List.scanl f a l = List.scanl g a l := by
  intro l
  induction l with
  | nil => intro a; simp [List.scanl_nil]
  | cons x xs ih =>
    intro a
    simp only [List.scanl_cons, ih, h]

theorem linspace_length (start stop : ℝ) (num : ℕ) :
    (linspace start stop num).length = num := by
  rw [linspace, List.length_map, List.length_range]

theorem linspace_getD (start stop : ℝ) (num i : ℕ) (h : i < num) :
    (linspace start stop num).getD i 0 =
      start + (stop - start) * i / ((num - 1 : ℕ) : ℝ) := by
  have hl : i < (linspace start stop num).length := by
    rw [linspace_length]; exact h
  rw [List.getD_eq_getElem _ _ hl]
  simp only [linspace, List.getElem_map, List.getElem_range]

theorem grid_getD (T : ℝ) (N i : ℕ) (h : i ≤ N) :
    (linspace 0 T (N + 1)).getD i 0 = i * T / N := by
  rw [linspace_getD 0 T (N + 1) i (Nat.lt_succ_of_le h)]
  push_cast
  ring

theorem grid_getLastD (T : ℝ) (N : ℕ) (hN : 1 ≤ N) :
    (linspace 0 T (N + 1)).getLastD 0 = T := by
  have hN' : ((N : ℝ)) ≠ 0 := by
    exact_mod_cast Nat.one_le_iff_ne_zero.mp hN
  rw [linspace, List.range_succ, List.map_append]
  simp only [List.map_cons, List.map_nil]
  rw [List.getLastD_concat]
  push_cast
  field_simp

theorem grid_headI (T : ℝ) (N : ℕ) :
    (linspace 0 T (N + 1)).headI = 0 := by
  rw [linspace, List.range_succ_eq_map]
  simp

theorem gridDt_eq (T : ℝ) (N : ℕ) (hN : 1 ≤ N) :
    gridDt (linspace 0 T (N + 1)) = T / N := by
  rw [gridDt, grid_getLastD T N hN, linspace_length]
  push_cast
  ring_nf

theorem dBValues_length (B : List ℝ) (h : B ≠ []) :
    (dBValues B).length = B.length := by
  cases B with
  | nil => exact absurd rfl h
  | cons b bs =>
    simp [dBValues, npdiff]

theorem dBValues_getD (B : List ℝ) (i : ℕ) (hi : i < B.length) :
    (dBValues B).getD i 0 =
      if i = 0 then B.getD 0 0 else B.getD i 0 - B.getD (i - 1) 0 := by
  cases B with
  | nil => simp at hi
  | cons b bs =>
    cases i with
    | zero => simp [dBValues]
    | succ j =>
      have hj : j < bs.length := by simpa using hi
      have hj1 : j < (b :: bs).length := by simp; omega
      rw [dBValues, List.getD_cons_succ, npdiff]
      rw [zipWith_getD (fun a c => c - a) 0 0 0 (b :: bs) (b :: bs).tail j hj1 (by simpa using hj)]
      simp [getD_tail]

theorem lookupAttr_none_iff (name : String) :
    lookupAttr name = none ↔ name ∉ simAttrNames := by
  unfold lookupAttr simAttrNames
  split_ifs <;> simp_all

theorem simDispatch_scheme (p : GBM_setup) (m : String) (t B : List ℝ)
    (hm : m ∈ schemeMethodNames) :
    simDispatch p m t B = .ok (t, schemeApply p m t B) := by
  have h3 : m = r"exact_method" ∨ m = r"euler_method" ∨ m = r"milstein_method" := by
    simpa [schemeMethodNames] using hm
  rcases h3 with rfl | rfl | rfl <;> rfl

theorem compareLoop_ok (p : GBM_setup) (B : List ℝ) :
    ∀ (methods : List String) (t : List ℝ),
      (∀ m ∈ methods, m ∈ schemeMethodNames) →
      compareLoop p methods t B =
        .ok (methods.map (fun m => (m, t, schemeApply p m t B))) := by
  intro methods
  induction methods with
  | nil => intro t h; rfl
  | cons m rest ih =>
    intro t h
    have hm : m ∈ schemeMethodNames := h m (List.mem_cons_self m rest)
    have hrest : ∀ x ∈ rest, x ∈ schemeMethodNames :=
      fun x hx => h x (List.mem_cons_of_mem m hx)
    simp [compareLoop, simDispatch_scheme p m t B hm, except_bind_ok, ih t hrest]

theorem simulate_path_dispatch (rng : ℕ → ℝ → ℕ → List ℝ) (e : ℕ) (p : GBM_setup)
    (T : ℝ) (N : ℕ) (name : String) (seed : Option ℕ) (hN : N ≠ 0) :
    simulate_path rng e p T N name seed =
      simDispatch p name (linspace 0 T (N + 1))
        (cumsum (rng (default_rng seed e) (Real.sqrt (T / N)) N)) := by
  unfold simulate_path
  rw [pydivNat_pos T N hN, except_bind_ok]

theorem simulate_path_eval (rng : ℕ → ℝ → ℕ → List ℝ) (e : ℕ) (p : GBM_setup)
    (T : ℝ) (N : ℕ) (m : String) (seed : Option ℕ) (hN : N ≠ 0)
    (hm : m ∈ schemeMethodNames) :
    simulate_path rng e p T N m seed =
      .ok (linspace 0 T (N + 1),
        schemeApply p m (linspace 0 T (N + 1))
          (cumsum (rng (default_rng seed e) (Real.sqrt (T / N)) N))) := by
  rw [simulate_path_dispatch rng e p T N m seed hN]
  exact simDispatch_scheme p m _ _ hm

theorem simulate_compare_eval (rng : ℕ → ℝ → ℕ → List ℝ) (e : ℕ) (p : GBM_setup)
    (T : ℝ) (N : ℕ) (seed : Option ℕ) (methods : List String)
    (hN : N ≠ 0) (hm : ∀ m ∈ methods, m ∈ schemeMethodNames) :
    simulate_compare rng e p T N seed methods =
      .ok ⟨methods.map (fun m =>
            (m, linspace 0 ((pyint T : ℤ) : ℝ) (N + 1),
             schemeApply p m (linspace 0 ((pyint T : ℤ) : ℝ) (N + 1))
               (cumsum (rng (default_rng seed e) (Real.sqrt (T / N)) N)))),
          none⟩ := by
  unfold simulate_compare
  rw [pydivNat_pos T N hN, except_bind_ok]
  show (compareLoop p methods (linspace 0 ((pyint T : ℤ) : ℝ) (N + 1))
      (cumsum (rng (default_rng seed e) (Real.sqrt (T / N)) N)) >>=
        fun plots => (pure (CompareOutcome.mk plots none) :
          Except PyError CompareOutcome)) = _
  rw [compareLoop_ok p (cumsum (rng (default_rng seed e) (Real.sqrt (T / N)) N))
    methods (linspace 0 ((pyint T : ℤ) : ℝ) (N + 1)) hm]
  rfl

/-- Claim C6: for every time grid of N+1 points starting at 0 and every
cumulative Brownian sample of N points, exact_method returns the grid
unchanged and a value sequence of length N+1 whose first element is exactly
initial_value and whose (i+1)-th element equals
y0 * exp((mu - sigma^2/2) * t_(i+1) + sigma * B_i), pairing grid point i+1
with the i-th cumulative Brownian value. -/
theorem c6_exact_method_alignment (p : GBM_setup) (t B : List ℝ)
    (hlen : t.length = B.length + 1) (_h0 : t.headI = 0) :
    (exact_method p t B).1 = t ∧
    (exact_method p t B).2.length = t.length ∧
    (exact_method p t B).2.headI = p.y0 ∧
    ∀ i, i < B.length →
      (exact_method p t B).2.getD (i + 1) 0 =
        p.y0 * Real.exp ((p.mu - 0.5 * p.sigma ^ 2) * t.getD (i + 1) 0
          + p.sigma * B.getD i 0) := by
  refine ⟨rfl, ?_, rfl, ?_⟩
  · simp only [exact_method, List.length_cons, List.length_zipWith, List.length_tail, hlen]
    omega
  · intro i hi
    have hjt : i < t.tail.length := by
      simp only [List.length_tail, hlen]
      omega
    show (p.y0 :: List.zipWith (fun t Bt => exactVal p t Bt) t.tail B).getD (i + 1) 0 = _
    rw [List.getD_cons_succ]
    rw [zipWith_getD (fun t Bt => exactVal p t Bt) 0 0 0 t.tail B i hjt hi]
    rw [getD_tail]
    rfl

/-- Claim C6 witness: the theorem applied at a concrete grid and sample. -/
theorem c6_exact_method_alignment_witness :
    (([0, 1, 2] : List ℝ).length = ([5, 7] : List ℝ).length + 1) ∧
    (([0, 1, 2] : List ℝ).headI = 0) ∧
    (exact_method p0 [0, 1, 2] [5, 7]).2.length = ([0, 1, 2] : List ℝ).length ∧
    (exact_method p0 [0, 1, 2] [5, 7]).2.headI = p0.y0 := by
  have h := c6_exact_method_alignment p0 [0, 1, 2] [5, 7] (by simp) rfl
  exact ⟨by simp, rfl, h.2.1, h.2.2.1⟩

/-- Claim C7: euler_method returns the grid unchanged and a value sequence
of length N+1 with Y_0 = initial_value, satisfying the strictly sequential
recurrence Y_(i+1) = Y_i + mu Y_i dt + sigma Y_i dB_i where dt is recomputed
from the grid as t[-1]/(len(t)-1) and dB_i is the i-th entry of the first
differences of the cumulative sample with the first cumulative value
prepended as the first increment. -/
theorem c7_euler_method_recurrence (p : GBM_setup) (t B : List ℝ) (hB : B ≠ []) :
    (euler_method p t B).1 = t ∧
    (euler_method p t B).2.length = B.length + 1 ∧
    (euler_method p t B).2.headI = p.y0 ∧
    ∀ i, i < B.length →
      (euler_method p t B).2.getD (i + 1) 0 =
        (euler_method p t B).2.getD i 0
          + (euler_method p t B).2.getD i 0 * p.mu * gridDt t
          + p.sigma * (euler_method p t B).2.getD i 0 *
            (if i = 0 then B.getD 0 0 else B.getD i 0 - B.getD (i - 1) 0) := by
  refine ⟨rfl, ?_, ?_, ?_⟩
  · show (List.scanl (fun y_pre dB => eulerStep p (gridDt t) y_pre dB)
        p.y0 (dBValues B)).length = B.length + 1
    rw [List.length_scanl, dBValues_length B hB]
  · show (List.scanl (fun y_pre dB => eulerStep p (gridDt t) y_pre dB)
        p.y0 (dBValues B)).getD 0 0 = p.y0
    exact scanl_getD_zero _ p.y0 0 (dBValues B)
  · intro i hi
    have hi2 : i < (dBValues B).length := by
      rw [dBValues_length B hB]
      exact hi
    show (List.scanl (fun y_pre dB => eulerStep p (gridDt t) y_pre dB)
        p.y0 (dBValues B)).getD (i + 1) 0 = _
    rw [scanl_getD_succ (fun y_pre dB => eulerStep p (gridDt t) y_pre dB)
      0 0 (dBValues B) p.y0 i hi2]
    rw [dBValues_getD B i hi]
    rfl

/-- Claim C7 witness: the theorem applied at a concrete grid and sample. -/
theorem c7_euler_method_recurrence_witness :
    (([3, 4] : List ℝ) ≠ []) ∧
    (euler_method p0 [0, 1] [3, 4]).2.length = ([3, 4] : List ℝ).length + 1 ∧
    (euler_method p0 [0, 1] [3, 4]).2.headI = p0.y0 := by
  have h := c7_euler_method_recurrence p0 [0, 1] [3, 4] (by simp)
  exact ⟨by simp, h.2.1, h.2.2.1⟩

/-- Claim C8: milstein_method keeps the grid of euler_method and follows the
same recurrence, each step being exactly the Euler update plus the
second-order correction 0.5 sigma^2 Y_i (dB_i^2 - dt), fed the identical
reconstructed increments dBValues B and the identical step size gridDt t. -/
theorem c8_milstein_euler_correction (p : GBM_setup) (t B : List ℝ) (i : ℕ)
    (hi : i < B.length) :
    (∀ dt y dB, milsteinStep p dt y dB =
      eulerStep p dt y dB + 0.5 * p.sigma ^ 2 * y * (dB ^ 2 - dt)) ∧
    (milstein_method p t B).1 = (euler_method p t B).1 ∧
    (milstein_method p t B).2.getD (i + 1) 0 =
      eulerStep p (gridDt t) ((milstein_method p t B).2.getD i 0)
          ((dBValues B).getD i 0)
        + 0.5 * p.sigma ^ 2 * ((milstein_method p t B).2.getD i 0) *
          (((dBValues B).getD i 0) ^ 2 - gridDt t) := by
  have hB : B ≠ [] := by
    intro h
    rw [h] at hi
    simp at hi
  have hi2 : i < (dBValues B).length := by
    rw [dBValues_length B hB]
    exact hi
  refine ⟨?_, rfl, ?_⟩
  · intro dt y dB
    rw [milsteinStep, eulerStep]
  · show (List.scanl (fun y_pre dB => milsteinStep p (gridDt t) y_pre dB)
        p.y0 (dBValues B)).getD (i + 1) 0 = _
    rw [scanl_getD_succ (fun y_pre dB => milsteinStep p (gridDt t) y_pre dB)
      0 0 (dBValues B) p.y0 i hi2]
    rw [milsteinStep, eulerStep]
    rfl

/-- Claim C8 witness: the theorem applied at a concrete grid, sample and step. -/
theorem c8_milstein_euler_correction_witness :
    ((0 : ℕ) < ([2] : List ℝ).length) ∧
    (milstein_method p0 [0, 1] [2]).1 = (euler_method p0 [0, 1] [2]).1 := by
  have h := c8_milstein_euler_correction p0 [0, 1] [2] 0 (by simp)
  exact ⟨by simp, h.2.1⟩

/-- Claim C9: for a fixed non-None seed, simulate_path is a deterministic
function of (params, T, N, scheme, seed): the ambient entropy that would
seed an unseeded generator does not influence the result, so two calls
with the same arguments return identical grids and value sequences. -/
theorem c9_simulate_path_deterministic (rng : ℕ → ℝ → ℕ → List ℝ)
    (e1 e2 : ℕ) (p : GBM_setup) (T : ℝ) (N : ℕ) (m : String) (s : ℕ) :
    simulate_path rng e1 p T N m (some s) = simulate_path rng e2 p T N m (some s) :=
  rfl

/-- Claim C1 fails on the code: with diffusion sigma = 0, drift mu = 1,
T = 1, N = 1, the Euler value at the last grid point t_1 = 1 is
y0 * (1 + mu * dt) = 2, not the deterministic exponential
y0 * exp(mu * t_1) = e. -/
theorem c1_zero_diffusion_counterexample :
    (euler_method p0 (linspace 0 1 2) [0]).2.getD 1 0 ≠
      p0.y0 * Real.exp (p0.mu * (linspace 0 1 2).getD 1 0) := by
  have ht : (linspace 0 (1 : ℝ) 2).getD 1 0 = 1 := by
    have h := grid_getD (1 : ℝ) 1 1 (le_refl 1)
    simpa using h
  have hdt : gridDt (linspace 0 (1 : ℝ) 2) = 1 := by
    have h := gridDt_eq (1 : ℝ) 1 (le_refl 1)
    simpa using h
  have hlhs : (euler_method p0 (linspace 0 1 2) [0]).2.getD 1 0 = 2 := by
    show (List.scanl (fun y_pre dB => eulerStep p0 (gridDt (linspace 0 1 2)) y_pre dB)
        p0.y0 (dBValues [0])).getD 1 0 = 2
    have hd : dBValues [(0 : ℝ)] = [0] := by
      simp [dBValues, npdiff]
    rw [hd, hdt]
    simp [List.scanl, eulerStep, p0]
    norm_num
  rw [hlhs, ht]
  have h2 : (2 : ℝ) < Real.exp 1 := by
    have h9 : (2.7182818283 : ℝ) < Real.exp 1 := Real.exp_one_gt_d9
    linarith
  have hr : p0.y0 * Real.exp (p0.mu * 1) = Real.exp 1 := by
    show (1 : ℝ) * Real.exp (1 * 1) = Real.exp 1
    norm_num
  rw [hr]
  exact ne_of_lt h2

/-- Claim C1 (amended): with diffusion sigma = 0 the exact scheme equals the
deterministic exponential y0 * exp(mu * t_i) at every grid point, while the
Euler and Milstein recurrences collapse to pure compounding
y0 * (1 + mu * T/N)^i, independent of the Brownian sample; the compounded
values agree with the exponential only in the limit, not at the grid
points. -/
theorem c1_zero_diffusion_amended (p : GBM_setup) (T : ℝ) (N : ℕ) (B : List ℝ)
    (hsig : p.sigma = 0) (hN : 1 ≤ N) (hB : B.length = N) :
    (∀ i, i ≤ N → (exact_method p (linspace 0 T (N + 1)) B).2.getD i 0 =
        p.y0 * Real.exp (p.mu * ((linspace 0 T (N + 1)).getD i 0))) ∧
    (∀ i, i ≤ N → (euler_method p (linspace 0 T (N + 1)) B).2.getD i 0 =
        p.y0 * (1 + p.mu * (T / N)) ^ i) ∧
    (∀ i, i ≤ N → (milstein_method p (linspace 0 T (N + 1)) B).2.getD i 0 =
        p.y0 * (1 + p.mu * (T / N)) ^ i) := by
  have hBne : B ≠ [] := by
    intro h
    rw [h] at hB
    simp at hB
    omega
  have hdt : gridDt (linspace 0 T (N + 1)) = T / N := gridDt_eq T N hN
  have hlen : (linspace 0 T (N + 1)).length = N + 1 := linspace_length 0 T (N + 1)
  have hdBlen : (dBValues B).length = N := by
    rw [dBValues_length B hBne, hB]
  refine ⟨?_, ?_, ?_⟩
  · intro i hi
    cases i with
    | zero =>
      have h0 := grid_getD T N 0 (Nat.zero_le N)
      show p.y0 = p.y0 * Real.exp (p.mu * ((linspace 0 T (N + 1)).getD 0 0))
      rw [h0]
      simp
    | succ j =>
      have hj : j < N := Nat.lt_of_succ_le hi
      have hjt : j < (linspace 0 T (N + 1)).tail.length := by
        simp only [List.length_tail, hlen]
        omega
      have hjB : j < B.length := by omega
      show (p.y0 :: List.zipWith (fun t Bt => exactVal p t Bt)
          (linspace 0 T (N + 1)).tail B).getD (j + 1) 0 = _
      rw [List.getD_cons_succ]
      rw [zipWith_getD (fun t Bt => exactVal p t Bt) 0 0 0
        (linspace 0 T (N + 1)).tail B j hjt hjB]
      rw [getD_tail]
      rw [exactVal, hsig]
      norm_num
  · intro i hi
    have hf : ∀ y b, eulerStep p (gridDt (linspace 0 T (N + 1))) y b =
        y * (1 + p.mu * (T / N)) := by
      intro y b
      rw [eulerStep, hdt, hsig]
      ring
    exact scanl_getD_geom (1 + p.mu * (T / N)) 0 _ hf (dBValues B) p.y0 i
      (by rw [hdBlen]; exact hi)
  · intro i hi
    have hf : ∀ y b, milsteinStep p (gridDt (linspace 0 T (N + 1))) y b =
        y * (1 + p.mu * (T / N)) := by
      intro y b
      rw [milsteinStep, hdt, hsig]
      ring
    exact scanl_getD_geom (1 + p.mu * (T / N)) 0 _ hf (dBValues B) p.y0 i
      (by rw [hdBlen]; exact hi)

/-- Claim C1 witness: the amended theorem applied at sigma = 0, T = 1, N = 1,
B = [0]. -/
theorem c1_zero_diffusion_amended_witness :
    p0.sigma = 0 ∧ (1 : ℕ) ≤ 1 ∧ ([(0 : ℝ)] : List ℝ).length = 1 ∧
    (∀ i, i ≤ 1 → (euler_method p0 (linspace 0 1 (1 + 1)) [0]).2.getD i 0 =
        p0.y0 * (1 + p0.mu * ((1 : ℝ) / ((1 : ℕ) : ℝ))) ^ i) := by
  have h := c1_zero_diffusion_amended p0 1 1 [0] rfl (le_refl 1) (by simp)
  exact ⟨rfl, le_refl 1, by simp, h.2.1⟩

/-- Claim C2 fails on the code: simulate_compare returns None (modelled as
ret = none), not the ordered list of per-scheme results; at T = 1, N = 1,
seed 0 with the default scheme list the returned value is None. -/
theorem c2_returns_none_counterexample :
    Except.map CompareOutcome.ret
      (simulate_compare rng0 0 p0 1 1 (some 0) schemeMethodNames) = .ok none := by
  rw [simulate_compare_eval rng0 0 p0 1 1 (some 0) schemeMethodNames
    (by norm_num) (fun m hm => hm)]
  rfl

/-- Claim C2 (amended): for every valid (T, N, seed) and list of scheme
names, simulate_compare constructs exactly one Brownian driver and applies
every named scheme to that single driver, plotting one ordered
(scheme_name, TimeGrid, ValueSequence) series per scheme; the function
itself returns None rather than that list. -/
theorem c2_simulate_compare_amended (rng : ℕ → ℝ → ℕ → List ℝ) (e : ℕ)
    (p : GBM_setup) (T : ℝ) (N : ℕ) (seed : Option ℕ) (methods : List String)
    (hN : N ≠ 0) (hm : ∀ m ∈ methods, m ∈ schemeMethodNames) :
    simulate_compare rng e p T N seed methods =
      .ok ⟨methods.map (fun m =>
            (m, linspace 0 ((pyint T : ℤ) : ℝ) (N + 1),
             schemeApply p m (linspace 0 ((pyint T : ℤ) : ℝ) (N + 1))
               (cumsum (rng (default_rng seed e) (Real.sqrt (T / N)) N)))),
          none⟩ :=
  simulate_compare_eval rng e p T N seed methods hN hm

/-- Claim C2 witness: the amended theorem applied at T = 1, N = 1, seed 0
with the default scheme list. -/
theorem c2_simulate_compare_amended_witness :
    (1 : ℕ) ≠ 0 ∧ (∀ m ∈ schemeMethodNames, m ∈ schemeMethodNames) ∧
    simulate_compare rng0 0 p0 1 1 (some 0) schemeMethodNames =
      .ok ⟨schemeMethodNames.map (fun m =>
            (m, linspace 0 ((pyint 1 : ℤ) : ℝ) (1 + 1),
             schemeApply p0 m (linspace 0 ((pyint 1 : ℤ) : ℝ) (1 + 1))
               (cumsum (rng0 (default_rng (some 0) 0)
                 (Real.sqrt ((1 : ℝ) / ((1 : ℕ) : ℝ))) 1)))),
          none⟩ :=
  ⟨by norm_num, fun m hm => hm,
    c2_simulate_compare_amended rng0 0 p0 1 1 (some 0) schemeMethodNames
      (by norm_num) (fun m hm => hm)⟩

/-- Claim C3 fails on the code for simulate_compare: at T = 3/2, N = 1 the
comparison grid is np.linspace(0, int(3/2), 2) = [0, 1], whose last point 1
is not T = 3/2, so the grid is not t_i = i*T/N. -/
theorem c3_compare_grid_counterexample :
    Except.map (fun o => o.plots.map (fun pr => pr.2.1))
      (simulate_compare rng0 0 p0 (3 / 2) 1 (some 0) [r"exact_method"]) =
      .ok [[0, 1]] ∧
    (1 : ℝ) ≠ 3 / 2 := by
  constructor
  · rw [simulate_compare_eval rng0 0 p0 (3 / 2) 1 (some 0) [r"exact_method"]
      (by norm_num)
      (by intro m hm; simp at hm; subst hm; simp [schemeMethodNames])]
    have hpy : pyint ((3 : ℝ) / 2) = 1 := by
      rw [pyint, if_pos (by norm_num : (0 : ℝ) ≤ 3 / 2)]
      rw [Int.floor_eq_iff]
      constructor <;> norm_num
    have hg : linspace 0 (((1 : ℤ)) : ℝ) (1 + 1) = [0, 1] := by
      rw [linspace, show List.range (1 + 1) = [0, 1] from rfl]
      simp
    rw [hpy, hg]
    rfl
  · norm_num

/-- Claim C3 (amended): simulate_path builds and returns the grid
t_i = i*T/N with N+1 points, first point 0, last point T, uniform spacing
T/N, strictly increasing for T > 0; simulate_compare truncates the horizon
to int(T) in its grid, so its plotted grids satisfy the same properties
exactly when T is an integer. -/
theorem c3_time_grid_amended (rng : ℕ → ℝ → ℕ → List ℝ) (e : ℕ) (p : GBM_setup)
    (T : ℝ) (N : ℕ) (seed : Option ℕ) (m : String)
    (hT : 0 < T) (hN : 1 ≤ N) (hm : m ∈ schemeMethodNames) :
    simulate_path rng e p T N m seed =
      .ok (linspace 0 T (N + 1),
        schemeApply p m (linspace 0 T (N + 1))
          (cumsum (rng (default_rng seed e) (Real.sqrt (T / N)) N))) ∧
    (linspace 0 T (N + 1)).length = N + 1 ∧
    (∀ i, i ≤ N → (linspace 0 T (N + 1)).getD i 0 = i * T / N) ∧
    (linspace 0 T (N + 1)).headI = 0 ∧
    (linspace 0 T (N + 1)).getLastD 0 = T ∧
    (∀ i, i < N →
      (linspace 0 T (N + 1)).getD (i + 1) 0 - (linspace 0 T (N + 1)).getD i 0
          = T / N ∧
      (linspace 0 T (N + 1)).getD i 0 < (linspace 0 T (N + 1)).getD (i + 1) 0) ∧
    (T = ((pyint T : ℤ) : ℝ) →
      simulate_compare rng e p T N seed schemeMethodNames =
        .ok ⟨schemeMethodNames.map (fun s =>
              (s, linspace 0 T (N + 1),
               schemeApply p s (linspace 0 T (N + 1))
                 (cumsum (rng (default_rng seed e) (Real.sqrt (T / N)) N)))),
            none⟩) := by
  have hN0 : N ≠ 0 := Nat.one_le_iff_ne_zero.mp hN
  have hNR : (0 : ℝ) < N := by
    exact_mod_cast Nat.pos_of_ne_zero hN0
  refine ⟨simulate_path_eval rng e p T N m seed hN0 hm,
    linspace_length 0 T (N + 1), fun i hi => grid_getD T N i hi,
    grid_headI T N, grid_getLastD T N hN, ?_, ?_⟩
  · intro i hi
    have h1 := grid_getD T N i (Nat.le_of_lt hi)
    have h2 := grid_getD T N (i + 1) hi
    constructor
    · rw [h1, h2, div_sub_div_same]
      congr 1
      push_cast
      ring
    · rw [h1, h2]
      have hTN : 0 < T / N := div_pos hT hNR
      rw [mul_div_assoc, mul_div_assoc]
      have hc : (i : ℝ) < ((i + 1 : ℕ) : ℝ) := by
        exact_mod_cast Nat.lt_succ_self i
      exact mul_lt_mul_of_pos_right hc hTN
  · intro hTeq
    rw [simulate_compare_eval rng e p T N seed schemeMethodNames hN0
      (fun x hx => hx), ← hTeq]

/-- Claim C3 witness: the amended theorem applied at T = 1, N = 1 with the
exact scheme, including the integer-horizon comparison conjunct. -/
theorem c3_time_grid_amended_witness :
    ((0 : ℝ) < 1 ∧ (1 : ℕ) ≤ 1 ∧ (r"exact_method") ∈ schemeMethodNames ∧
      (1 : ℝ) = ((pyint 1 : ℤ) : ℝ)) ∧
    (linspace 0 (1 : ℝ) (1 + 1)).length = 1 + 1 ∧
    simulate_compare rng0 0 p0 1 1 (some 0) schemeMethodNames =
      .ok ⟨schemeMethodNames.map (fun s =>
            (s, linspace 0 (1 : ℝ) (1 + 1),
             schemeApply p0 s (linspace 0 (1 : ℝ) (1 + 1))
               (cumsum (rng0 (default_rng (some 0) 0)
                 (Real.sqrt ((1 : ℝ) / ((1 : ℕ) : ℝ))) 1)))),
          none⟩ := by
  have hpy : (1 : ℝ) = ((pyint 1 : ℤ) : ℝ) := by
    rw [pyint, if_pos (by norm_num : (0 : ℝ) ≤ 1)]
    norm_num
  have h := c3_time_grid_amended rng0 0 p0 1 1 (some 0) (r"exact_method")
    (by norm_num) (le_refl 1) (by simp [schemeMethodNames])
  exact ⟨⟨by norm_num, le_refl 1, by simp [schemeMethodNames], hpy⟩,
    h.2.1, h.2.2.2.2.2.2 hpy⟩

/-- Claim C4 fails on the code: simulate_path performs no parameter
validation.  With N = 0 it raises the very division-by-zero (at dt = T/N)
that the claim excludes, and with T = 0 (a T <= 0 instance) it succeeds and
returns a result instead of failing. -/
theorem c4_invalid_n_counterexample :
    simulate_path rng0 0 p0 1 0 (r"exact_method") none =
      .error .zeroDivisionError ∧
    simulate_path rng0 0 p0 0 4 (r"exact_method") none =
      .ok (linspace 0 (0 : ℝ) (4 + 1),
        schemeApply p0 (r"exact_method") (linspace 0 (0 : ℝ) (4 + 1))
          (cumsum (rng0 (default_rng none 0)
            (Real.sqrt ((0 : ℝ) / ((4 : ℕ) : ℝ))) 4))) := by
  constructor
  · rfl
  · exact simulate_path_eval rng0 0 p0 0 4 (r"exact_method") none
      (by norm_num) (by simp [schemeMethodNames])

/-- Claim C4 (amended): simulate_path never validates T or N.  Every call
with N = 0 fails by raising ZeroDivisionError at dt = T/N (no diagnostic
names the offending parameter), and every call with N >= 1 and a valid
scheme method name succeeds for every T, including T <= 0. -/
theorem c4_no_validation_amended (rng : ℕ → ℝ → ℕ → List ℝ) (e : ℕ)
    (p : GBM_setup) (T : ℝ) (m : String) (seed : Option ℕ) :
    simulate_path rng e p T 0 m seed = .error .zeroDivisionError ∧
    (∀ N : ℕ, N ≠ 0 → ∀ m2 ∈ schemeMethodNames,
      simulate_path rng e p T N m2 seed =
        .ok (linspace 0 T (N + 1),
          schemeApply p m2 (linspace 0 T (N + 1))
            (cumsum (rng (default_rng seed e) (Real.sqrt (T / N)) N)))) := by
  constructor
  · rfl
  · intro N hN m2 hm2
    exact simulate_path_eval rng e p T N m2 seed hN hm2

/-- Claim C4 witness: the amended theorem applied at T = 0, N = 4 with the
Euler scheme. -/
theorem c4_no_validation_amended_witness :
    (4 : ℕ) ≠ 0 ∧ (r"euler_method") ∈ schemeMethodNames ∧
    simulate_path rng0 0 p0 0 4 (r"euler_method") none =
      .ok (linspace 0 (0 : ℝ) (4 + 1),
        schemeApply p0 (r"euler_method") (linspace 0 (0 : ℝ) (4 + 1))
          (cumsum (rng0 (default_rng none 0)
            (Real.sqrt ((0 : ℝ) / ((4 : ℕ) : ℝ))) 4))) := by
  have h := c4_no_validation_amended rng0 0 p0 0 (r"exact_method") none
  exact ⟨by norm_num, by simp [schemeMethodNames],
    h.2 4 (by norm_num) (r"euler_method") (by simp [schemeMethodNames])⟩

/-- Claim C5 fails on the code: the scheme name "exact" is not accepted;
the attribute-based dispatch accepts "exact_method", "euler_method",
"milstein_method" instead, and simulate_path with scheme "exact" raises
AttributeError naming "exact". -/
theorem c5_scheme_names_counterexample :
    simulate_path rng0 0 p0 1 10 (r"exact") (some 0) =
      .error (.attributeError (r"exact")) := by
  rfl

/-- Claim C5 (amended): the dispatch accepts exactly the method names
"exact_method", "euler_method", "milstein_method" as schemes (each yielding
the scheme result on the given grid and sample, never a silent default),
while an unknown name such as "rk4" — and also the spec's short names such
as "exact" — raises AttributeError naming the invalid string; the
diagnostic does not list the valid options. -/
theorem c5_dispatch_amended (p : GBM_setup) (t B : List ℝ) (m : String)
    (hm : m ∈ schemeMethodNames) :
    simDispatch p m t B = .ok (t, schemeApply p m t B) ∧
    simDispatch p (r"rk4") t B = .error (.attributeError (r"rk4")) ∧
    simDispatch p (r"exact") t B = .error (.attributeError (r"exact")) :=
  ⟨simDispatch_scheme p m t B hm, rfl, rfl⟩

/-- Claim C5 witness: the amended theorem applied to the Milstein method
name on a concrete grid and sample. -/
theorem c5_dispatch_amended_witness :
    (r"milstein_method") ∈ schemeMethodNames ∧
    simDispatch p0 (r"milstein_method") [0, 1] [2] =
      .ok ([0, 1], schemeApply p0 (r"milstein_method") [0, 1] [2]) ∧
    simDispatch p0 (r"rk4") [0, 1] [2] = .error (.attributeError (r"rk4")) := by
  have h := c5_dispatch_amended p0 [0, 1] [2] (r"milstein_method")
    (by simp [schemeMethodNames])
  exact ⟨by simp [schemeMethodNames], h.1, h.2.1⟩

/-- Claim C10: simulate_path selects the scheme by dynamic attribute lookup,
so (for N >= 1, where the dispatch is reached) the call raises
AttributeError exactly when the string names no attribute of the object,
and every string naming an attribute — the scheme methods but also y0, mu,
sigma, __init__, simulate_path, plot_path, simulate_compare — is accepted
and invoked with the grid and the cumulative Brownian sample. -/
theorem c10_dynamic_attribute_dispatch (rng : ℕ → ℝ → ℕ → List ℝ) (e : ℕ)
    (p : GBM_setup) (T : ℝ) (N : ℕ) (name : String) (seed : Option ℕ)
    (hN : N ≠ 0) :
    (simulate_path rng e p T N name seed = .error (.attributeError name) ↔
      name ∉ simAttrNames) ∧
    (∀ a, lookupAttr name = some a →
      simulate_path rng e p T N name seed =
        invoke2 p a (linspace 0 T (N + 1))
          (cumsum (rng (default_rng seed e) (Real.sqrt (T / N)) N))) := by
  rw [simulate_path_dispatch rng e p T N name seed hN]
  constructor
  · constructor
    · intro h
      rw [← lookupAttr_none_iff]
      by_contra hne
      obtain ⟨a, ha⟩ := Option.ne_none_iff_exists'.mp hne
      rw [simDispatch, ha] at h
      cases a <;> simp [invoke2] at h
    · intro h
      have hnone : lookupAttr name = none := (lookupAttr_none_iff name).mpr h
      rw [simDispatch, hnone]
  · intro a ha
    rw [simDispatch, ha]

/-- Claim C10 witness: the theorem applied to the non-scheme attribute name
"plot_path", which the dispatch accepts and invokes (ending in the plotting
TypeError, not an AttributeError). -/
theorem c10_dynamic_attribute_dispatch_witness :
    (1 : ℕ) ≠ 0 ∧ lookupAttr (r"plot_path") = some SimAttr.plotPath ∧
    simulate_path rng0 0 p0 1 1 (r"plot_path") none =
      invoke2 p0 SimAttr.plotPath (linspace 0 (1 : ℝ) (1 + 1))
        (cumsum (rng0 (default_rng none 0)
          (Real.sqrt ((1 : ℝ) / ((1 : ℕ) : ℝ))) 1)) := by
  have h := c10_dynamic_attribute_dispatch rng0 0 p0 1 1 (r"plot_path") none
    (by norm_num)
  exact ⟨by norm_num, rfl, h.2 SimAttr.plotPath rfl⟩
